import Mathlib

/-!
Shallow embedding of the emailToCalendar shift parser (`shift_parser.py`) and
the event-time construction of the calendar sink (`calendar_generator.py`).

Text is modelled as `List Char`.  The whitespace model covers the ASCII
whitespace characters recognised by both Python's `str.strip` and the `re`
module's `\s` class; exotic Unicode whitespace is outside the modelled
character repertoire (the inputs decided here are ASCII).
-/

/-- Strings are modelled as lists of characters. -/
abbrev Str := List Char

/-- ASCII whitespace, as matched by Python's `\s` and stripped by `str.strip`. -/
def pyIsSpace (c : Char) : Bool :=
  c == ' ' || c == '\t' || c == '\n' || c == '\r' || c == '\x0b' || c == '\x0c'

/-- ASCII decimal digit, as matched by the regex class `\d`. -/
def isDigitCh (c : Char) : Bool :=
  '0' ≤ c && c ≤ '9'

/-- Numeric value of a digit character. -/
def digitVal (c : Char) : Nat := c.toNat - 48

/-- ASCII lower-casing, used for the case-insensitive (`re.IGNORECASE`) matching. -/
def lowerCh (c : Char) : Char :=
  if 'A' ≤ c && c ≤ 'Z' then Char.ofNat (c.toNat + 32) else c

/-- ASCII upper-casing, used for `ampm.upper()` in `_parse_time`. -/
def upperCh (c : Char) : Char :=
  if 'a' ≤ c && c ≤ 'z' then Char.ofNat (c.toNat - 32) else c

/-- Drop trailing whitespace (the right half of Python's `str.strip`). -/
def dropTrail (s : Str) : Str :=
  (s.reverse.dropWhile pyIsSpace).reverse

/-- Python's `str.strip()`: remove leading and trailing whitespace. -/
def strip (s : Str) : Str :=
  dropTrail (s.dropWhile pyIsSpace)

/-- Worker for `splitlines`: `acc` holds the current line, reversed.
A `"\r\n"` pair, or a single `'\r'`, `'\n'`, `'\x0b'` or `'\x0c'`, ends a
line; a terminator at the end of the input does not open a final empty
line, matching Python's `str.splitlines`. -/
def splitlinesGo : Str → Str → List Str
  | [], acc => [acc.reverse]
  | '\r' :: '\n' :: rest, acc =>
      acc.reverse :: (if rest.isEmpty then [] else splitlinesGo rest [])
  | c :: rest, acc =>
      if c == '\n' || c == '\r' || c == '\x0b' || c == '\x0c' then
        acc.reverse :: (if rest.isEmpty then [] else splitlinesGo rest [])
      else
        splitlinesGo rest (c :: acc)

/-- Python's `str.splitlines()` (line-break repertoire restricted to the
ASCII terminators; the parsed email bodies use `'\n'`). -/
def splitlines (s : Str) : List Str :=
  if s.isEmpty then [] else splitlinesGo s []

/-- Calendar date, the model of `datetime.date` (ordered year, month, day). -/
structure PyDate where
  year : Nat
  month : Nat
  day : Nat
deriving DecidableEq

/-- Time of day, the model of `datetime.time` (seconds are always zero here). -/
structure PyTime where
  hour : Nat
  minute : Nat
deriving DecidableEq

/-- One parsed shift record: the dict
`{"date": ..., "start": ..., "end": ..., "title": ...}` returned by
`_parse_block`.  `end` is a Lean keyword, so that field is named `stop`. -/
structure Shift where
  date : PyDate
  start : PyTime
  stop : PyTime
  title : Str
deriving DecidableEq

/-- Gregorian leap-year rule, as in Python's `calendar`/`datetime`. -/
def isLeap (y : Nat) : Bool :=
  y % 4 == 0 && (y % 100 != 0 || y % 400 == 0)

/-- Days in a month, as validated by the `datetime.date` constructor. -/
def daysInMonth (y m : Nat) : Nat :=
  if m == 2 then (if isLeap y then 29 else 28)
  else if m == 4 || m == 6 || m == 9 || m == 11 then 30
  else 31

/-!
Models of the `strptime` directives used by `_parse_date` (`"%d/%m/%Y"`) and
`_parse_time` (`"%I:%M %p"`).  CPython's `_strptime` compiles each directive
to a regex alternation tried in order; each model function returns the
matched value and the remaining input, or `none` when the alternation fails.
-/

/-- Directive `%d`: regex `(3[01]|[12]\d|0[1-9]|[1-9])`, alternatives in order. -/
def parse_pd : Str → Option (Nat × Str)
  | [] => none
  | c :: rest =>
    if c == '3' then
      match rest with
      | c2 :: rest2 =>
        if c2 == '0' || c2 == '1' then some (30 + digitVal c2, rest2)
        else some (3, rest)
      | [] => some (3, [])
    else if c == '1' || c == '2' then
      match rest with
      | c2 :: rest2 =>
        if isDigitCh c2 then some (digitVal c * 10 + digitVal c2, rest2)
        else some (digitVal c, rest)
      | [] => some (digitVal c, [])
    else if c == '0' then
      match rest with
      | c2 :: rest2 =>
        if '1' ≤ c2 && c2 ≤ '9' then some (digitVal c2, rest2) else none
      | [] => none
    else if '4' ≤ c && c ≤ '9' then some (digitVal c, rest)
    else none

/-- Directives `%m` and `%I`: regex `(1[0-2]|0[1-9]|[1-9])`, alternatives in order. -/
def parse_pI : Str → Option (Nat × Str)
  | [] => none
  | c :: rest =>
    if c == '1' then
      match rest with
      | c2 :: rest2 =>
        if '0' ≤ c2 && c2 ≤ '2' then some (10 + digitVal c2, rest2)
        else some (1, rest)
      | [] => some (1, [])
    else if c == '0' then
      match rest with
      | c2 :: rest2 =>
        if '1' ≤ c2 && c2 ≤ '9' then some (digitVal c2, rest2) else none
      | [] => none
    else if '2' ≤ c && c ≤ '9' then some (digitVal c, rest)
    else none

/-- Directive `%M`: regex `([0-5]\d|\d)`, alternatives in order. -/
def parse_pM : Str → Option (Nat × Str)
  | [] => none
  | c :: rest =>
    match rest with
    | c2 :: rest2 =>
      if '0' ≤ c && c ≤ '5' && isDigitCh c2 then
        some (digitVal c * 10 + digitVal c2, rest2)
      else if isDigitCh c then some (digitVal c, rest)
      else none
    | [] => if isDigitCh c then some (digitVal c, []) else none

/-- Directive `%Y`: regex `(\d\d\d\d)`. -/
def parse_pY : Str → Option (Nat × Str)
  | a :: b :: c :: d :: rest =>
    if isDigitCh a && isDigitCh b && isDigitCh c && isDigitCh d then
      some (((digitVal a * 10 + digitVal b) * 10 + digitVal c) * 10 + digitVal d, rest)
    else none
  | _ => none

/-- Model of `_parse_date`: `datetime.strptime(date_str, "%d/%m/%Y").date()`
inside `try/except ValueError`.  The directives must consume the whole
string, and the `datetime.date` constructor then validates the calendar
combination (`1 <= year` and `day <= daysInMonth`; `%d` has already
guaranteed `1 <= day <= 31` and `%m` has guaranteed `1 <= month <= 12`,
and four `%Y` digits guarantee `year <= 9999`). -/
def pyParseDate (s : Str) : Option PyDate :=
  match parse_pd s with
  | some (d, '/' :: r1) =>
    match parse_pI r1 with
    | some (m, '/' :: r2) =>
      match parse_pY r2 with
      | some (y, []) =>
        if 1 ≤ y && d ≤ daysInMonth y m then some ⟨y, m, d⟩ else none
      | _ => none
    | _ => none
  | _ => none

/-- Model of `_parse_time`: `datetime.strptime(f"{time_str} {ampm.upper()}",
"%I:%M %p").time()` inside `try/except ValueError`.  The literal space in the
format matches a nonempty whitespace run; `%p` matches `AM`/`PM`
case-insensitively and the whole string must be consumed.  The 12-hour value
is converted exactly as `_strptime` does: `PM` adds 12 except at 12, `AM`
maps 12 to 0. -/
def pyParseTime (time_str ampm : Str) : Option PyTime :=
  let s := time_str ++ ' ' :: ampm.map upperCh
  match parse_pI s with
  | some (h, ':' :: r2) =>
    match parse_pM r2 with
    | some (m, r3) =>
      match r3 with
      | c :: _ =>
        if pyIsSpace c then
          match r3.dropWhile pyIsSpace with
          | [a, p2] =>
            if lowerCh a == 'a' && lowerCh p2 == 'm' then
              some ⟨if h == 12 then 0 else h, m⟩
            else if lowerCh a == 'p' && lowerCh p2 == 'm' then
              some ⟨if h == 12 then 12 else h + 12, m⟩
            else none
          | _ => none
        else none
      | [] => none
    | none => none
  | _ => none

/-!
Models of the four line regexes of `shift_parser.py` and of the
block-boundary regex `SHIFT_BLOCK_RE`.  Each is a hand-compiled form of the
leftmost-greedy backtracking semantics of the Python pattern; the derivation
is noted where greedy matching is not trivially deterministic.
-/

/-- Case-insensitive anchored prefix test: the model of matching the literal
part of a pattern under `re.IGNORECASE`. -/
def startsWithCI : Str → Str → Bool
  | [], _ => true
  | _ :: _, [] => false
  | p :: ps, c :: cs => lowerCh p == lowerCh c && startsWithCI ps cs

/-- Group 1 of `\s*(.+)` matched against `rest` (anchored, not full-match).
Greedy `\s*` takes the maximal whitespace run; if nothing remains, it
backtracks just far enough for `.+` to match one character, which then must
not be `'\n'` (`.` does not match a newline).  Hence: if some character
survives the whitespace run, the group is the maximal newline-free run from
there; if `rest` is nonempty but all whitespace, the group is the last
character that is not `'\n'` (and the match fails if every character is). -/
def capAfterWs (rest : Str) : Option Str :=
  if rest.isEmpty then none
  else
    let t := rest.dropWhile pyIsSpace
    if t.isEmpty then
      match rest.reverse.dropWhile (fun c => c == '\n') with
      | [] => none
      | c :: _ => some [c]
    else some (t.takeWhile (fun c => !(c == '\n')))

/-- Group 1 of `^<label>\s*(.+)` under `re.IGNORECASE`: the common shape of
`WORK_SITE_RE` (label `"Work Site:"`) and `POSITION_RE` (label `"Position:"`). -/
def labelCapture (label : Str) (line : Str) : Option Str :=
  if startsWithCI label line then capAfterWs (line.drop label.length) else none

/-- The `"Work Site:"` label: both the literal of `WORK_SITE_RE` and the text
re-prefixed to each block by `parse_shifts`. -/
def workSiteLabel : Str := "Work Site:".data

/-- The `"Position:"` label of `POSITION_RE`. -/
def positionLabel : Str := "Position:".data

/-- Group 1 of `DATE_LINE_RE = ^Date:\s*(\d{2}/\d{2}/\d{4})` under
`re.IGNORECASE`.  After the label, greedy `\s*` is deterministic (a digit is
never whitespace), and the group shape is fixed-width. -/
def dateGroup (line : Str) : Option Str :=
  if startsWithCI "Date:".data line then
    match (line.drop 5).dropWhile pyIsSpace with
    | a :: b :: '/' :: c :: d :: '/' :: e :: f :: g :: h :: _ =>
      if isDigitCh a && isDigitCh b && isDigitCh c && isDigitCh d &&
         isDigitCh e && isDigitCh f && isDigitCh g && isDigitCh h then
        some [a, b, '/', c, d, '/', e, f, g, h]
      else none
    | _ => none
  else none

/-- `\d{1,2}:\d{2}` with a single-digit hour (the backtracking alternative of
the greedy two-digit attempt in `matchHM`). -/
def matchHM1 : Str → Option (Str × Str)
  | a :: ':' :: c :: d :: rest =>
    if isDigitCh a && isDigitCh c && isDigitCh d then
      some ([a, ':', c, d], rest)
    else none
  | _ => none

/-- `(\d{1,2}:\d{2})`: greedy `\d{1,2}` prefers two digits and backtracks to
one when the following `:`/`\d{2}` part fails. -/
def matchHM (s : Str) : Option (Str × Str) :=
  match s with
  | a :: b :: ':' :: c :: d :: rest =>
    if isDigitCh a && isDigitCh b && isDigitCh c && isDigitCh d then
      some ([a, b, ':', c, d], rest)
    else matchHM1 s
  | _ => matchHM1 s

/-- `\s*(AM|PM)` under `re.IGNORECASE`: the letters are never whitespace, so
greedy `\s*` is deterministic; the group keeps the original casing. -/
def matchAmPm (s : Str) : Option (Str × Str) :=
  match s.dropWhile pyIsSpace with
  | a :: m :: rest =>
    if (lowerCh a == 'a' || lowerCh a == 'p') && lowerCh m == 'm' then
      some ([a, m], rest)
    else none
  | _ => none

/-- The four groups of
`TIME_LINE_RE = ^Time:\s*(\d{1,2}:\d{2})\s*(AM|PM)\s*-\s*(\d{1,2}:\d{2})\s*(AM|PM)`
under `re.IGNORECASE`.  Every `\s*` is followed by a non-whitespace
requirement, so each greedy whitespace run is deterministic. -/
def timeGroups (line : Str) : Option (Str × Str × Str × Str) :=
  if startsWithCI "Time:".data line then
    match matchHM ((line.drop 5).dropWhile pyIsSpace) with
    | some (g1, r1) =>
      match matchAmPm r1 with
      | some (g2, r2) =>
        match r2.dropWhile pyIsSpace with
        | '-' :: r3 =>
          match matchHM (r3.dropWhile pyIsSpace) with
          | some (g3, r4) =>
            match matchAmPm r4 with
            | some (g4, _) => some (g1, g2, g3, g4)
            | none => none
          | none => none
        | _ => none
      | none => none
    | none => none
  else none

/-- One match attempt of `SHIFT_BLOCK_RE = ^\d+\.\s+Work Site:` (with
`re.IGNORECASE`) at the current position, which the caller has already
checked to be a line start (`re.MULTILINE` makes `^` match only there).
Note the pattern starts with `\d+` directly after the anchor: no leading
whitespace is permitted before the digits.  Greedy `\d+` and `\s+` are
deterministic because `'.'` is not a digit and `'W'`/`'w'` is not
whitespace.  On success, returns the text after the consumed match. -/
def boundaryMatch (s : Str) : Option Str :=
  let ds := s.takeWhile isDigitCh
  if ds.isEmpty then none
  else
    match s.drop ds.length with
    | '.' :: r1 =>
      let ws := r1.takeWhile pyIsSpace
      if ws.isEmpty then none
      else if startsWithCI workSiteLabel (r1.drop ws.length) then
        some ((r1.drop ws.length).drop workSiteLabel.length)
      else none
    | _ => none

/-- Scanning loop of `re.split` with `SHIFT_BLOCK_RE`: walk the text, and at
every line start try `boundaryMatch`; a match ends the current segment and
the scan resumes right after the consumed match (non-overlapping matches,
and `':'` is not a line terminator, so the resumption point is never a line
start).  `fuel` only bounds the recursion: each step consumes at least one
character, so `fuel = s.length` never runs out before `s` does, and the
fuel-exhausted clause agrees with the empty-input clause. -/
def splitBlocksGo : Nat → Str → Bool → Str → List Str → List Str
  | 0, s, _, cur, acc => ((cur.reverse ++ s) :: acc).reverse
  | _ + 1, [], _, cur, acc => (cur.reverse :: acc).reverse
  | fuel + 1, c :: rest, atLineStart, cur, acc =>
    if atLineStart then
      match boundaryMatch (c :: rest) with
      | some rest2 => splitBlocksGo fuel rest2 false [] (cur.reverse :: acc)
      | none => splitBlocksGo fuel rest (c == '\n') (c :: cur) acc
    else splitBlocksGo fuel rest (c == '\n') (c :: cur) acc

/-- `SHIFT_BLOCK_RE.split(body)`: the segments between boundary matches, in
order, including the preamble before the first match. -/
def reSplitShiftBlock (body : Str) : List Str :=
  splitBlocksGo body.length body true [] []

/-!
The per-block field extractor `_parse_block` and the driver `parse_shifts`.
-/

/-- The five local variables of `_parse_block` while scanning a block's lines. -/
structure BlockState where
  date : Option PyDate
  start : Option PyTime
  stop : Option PyTime
  position : Option Str
  work_site : Option Str
deriving DecidableEq

/-- All five fields start out as `None`. -/
def initState : BlockState := ⟨none, none, none, none, none⟩

/-- One iteration of the line loop of `_parse_block`: strip the line, skip it
when blank, otherwise try the four patterns in their `if`/`elif` order.  A
date or time line stores the (possibly failed) strict-parse result directly,
overwriting any earlier value of the field. -/
def scanLine (st : BlockState) (raw : Str) : BlockState :=
  let line := strip raw
  if line.isEmpty then st
  else
    match labelCapture workSiteLabel line with
    | some g => { st with work_site := some (strip g) }
    | none =>
      match labelCapture positionLabel line with
      | some g => { st with position := some (strip g) }
      | none =>
        match dateGroup line with
        | some g => { st with date := pyParseDate g }
        | none =>
          match timeGroups line with
          | some (g1, g2, g3, g4) =>
            { st with start := pyParseTime g1 g2, stop := pyParseTime g3 g4 }
          | none => st

/-- The state after scanning all lines of one block. -/
def scanBlock (block : Str) : BlockState :=
  (splitlines block).foldl scanLine initState

/-- Python truthiness of a string: nonempty. -/
def pyTruthy (s : Str) : Bool := !s.isEmpty

/-- `" @ ".join(parts)` for a nonempty `parts`. -/
def joinSep (sep : Str) : List Str → Str
  | [] => []
  | [x] => x
  | x :: y :: rest => x ++ sep ++ joinSep sep (y :: rest)

/-- Title construction of `_parse_block`:
`parts = [p for p in [position, work_site] if p]` then
`" @ ".join(parts) if parts else "Work Shift"`. -/
def mkTitle (position work_site : Option Str) : Str :=
  let parts := ([position, work_site].filterMap id).filter pyTruthy
  if parts.isEmpty then "Work Shift".data else joinSep " @ ".data parts

/-- Tail of `_parse_block`: return `None` unless date, start and end all
resolved, else assemble the shift dict. -/
def finishState (st : BlockState) : Option Shift :=
  match st.date, st.start, st.stop with
  | some d, some s, some e => some ⟨d, s, e, mkTitle st.position st.work_site⟩
  | _, _, _ => none

/-- `_parse_block`: scan the block's lines, then validate and assemble. -/
def parse_block (block : Str) : Option Shift :=
  finishState (scanBlock block)

/-- `parse_shifts(body, _reference_date)`: split on the shift headers, drop
the preamble segment, re-prefix `"Work Site:"` to each block, and keep the
successful parses in block order.  The second parameter models the unused
`_reference_date` argument (kept in the source only for call-site
compatibility); the diagnostic `print` on an empty result is a log side
effect with no bearing on the returned value. -/
def parse_shifts (body : Str) (referenceDate : Option PyDate) : List Shift :=
  ((reSplitShiftBlock body).drop 1).filterMap
    (fun block => parse_block (workSiteLabel ++ block))

/-!
The event-time construction of the calendar sink (`_make_event` in
`calendar_generator.py`).
-/

/-- Python comparison of `datetime.time` values (lexicographic). -/
def timeLe (a b : PyTime) : Bool :=
  decide (a.hour < b.hour) || (decide (a.hour = b.hour) && decide (a.minute ≤ b.minute))

/-- Python strict comparison of `datetime.date` values (lexicographic). -/
def dateLtB (a b : PyDate) : Bool :=
  decide (a.year < b.year) ||
    (decide (a.year = b.year) &&
      (decide (a.month < b.month) ||
        (decide (a.month = b.month) && decide (a.day < b.day))))

/-- Python comparison of naive `datetime.datetime` values, modelled as a
date paired with a time. -/
def dtLe (a b : PyDate × PyTime) : Bool :=
  dateLtB a.1 b.1 || (decide (a.1 = b.1) && timeLe a.2 b.2)

/-- The calendar successor of a date (what `timedelta(days=1)` adds). -/
def nextDay (d : PyDate) : PyDate :=
  if d.day < daysInMonth d.year d.month then ⟨d.year, d.month, d.day + 1⟩
  else if d.month < 12 then ⟨d.year, d.month + 1, 1⟩
  else ⟨d.year + 1, 1, 1⟩

/-- `dt + timedelta(days=1)` on the date component: Python raises
`OverflowError` when the result would pass `date.max = 9999-12-31`, modelled
as `none`. -/
def addOneDay (d : PyDate) : Option PyDate :=
  if d = ⟨9999, 12, 31⟩ then none else some (nextDay d)

/-- The `dtstart`/`dtend` computation of `_make_event`:
`dt_start = combine(date, start)`, `dt_end = combine(date, end)`, and
`dt_end += timedelta(days=1)` when `dt_end <= dt_start`.  Returns the pair
of instants of the built event, or `none` when the day increment overflows
(Python raises `OverflowError` there and no event is built). -/
def make_event_times (s : Shift) : Option ((PyDate × PyTime) × (PyDate × PyTime)) :=
  let dt_start := (s.date, s.start)
  let dt_end := (s.date, s.stop)
  if dtLe dt_end dt_start then
    (addOneDay s.date).map (fun d2 => (dt_start, (d2, s.stop)))
  else some (dt_start, dt_end)

/-!
Helper lemmas.
-/

/-- Dropping a satisfied prefix twice is the same as once. -/
theorem dropWhile_idem (p : Char → Bool) (l : Str) :
    (l.dropWhile p).dropWhile p = l.dropWhile p := by
  cases h : l.dropWhile p with
  | nil => simp
  | cons c cs =>
    have hc : p c = false := by
      have hm := List.head?_dropWhile_not p l
      rw [h] at hm
      simpa using hm
    simp [List.dropWhile_cons, hc]

/-- The head surviving a `dropWhile` fails the predicate. -/
theorem dropWhile_head_false {p : Char → Bool} {l : Str} {c : Char} {cs : Str}
    (h : l.dropWhile p = c :: cs) : p c = false := by
  have hm := List.head?_dropWhile_not p l
  rw [h] at hm
  simpa using hm

/-- A stripped string has no trailing whitespace, seen through its reversal. -/
theorem strip_reverse_dropWhile (s : Str) :
    (strip s).reverse.dropWhile pyIsSpace = (strip s).reverse := by
  simp only [strip, dropTrail, List.reverse_reverse]
  exact dropWhile_idem pyIsSpace _

/-- Any nonempty suffix of a stripped string contains a non-whitespace
character (namely its last one). -/
theorem strip_drop_has_nonspace (s : Str) (k : Nat)
    (h : (strip s).drop k ≠ []) :
    ∃ c ∈ (strip s).drop k, pyIsSpace c = false := by
  set L := strip s with hL
  obtain ⟨c, cs, hR⟩ : ∃ c cs, (L.drop k).reverse = c :: cs := by
    cases hcase : (L.drop k).reverse with
    | nil => exact absurd (by simpa using hcase) h
    | cons c cs => exact ⟨c, cs, rfl⟩
  have hrev : L.reverse = c :: (cs ++ (L.take k).reverse) := by
    calc L.reverse = ((L.take k) ++ (L.drop k)).reverse := by rw [List.take_append_drop]
    _ = (L.drop k).reverse ++ (L.take k).reverse := by rw [List.reverse_append]
    _ = c :: (cs ++ (L.take k).reverse) := by rw [hR]; rfl
  have hfix : L.reverse.dropWhile pyIsSpace = L.reverse := strip_reverse_dropWhile s
  have hc : pyIsSpace c = false := by
    by_contra hcon
    have hc' : pyIsSpace c = true := by
      cases hval : pyIsSpace c
      · exact absurd hval hcon
      · rfl
    rw [hrev, List.dropWhile_cons_of_pos hc'] at hfix
    have hlen := congrArg List.length hfix
    have hle : ((cs ++ (L.take k).reverse).dropWhile pyIsSpace).length ≤
        (cs ++ (L.take k).reverse).length := (List.dropWhile_sublist _).length_le
    rw [List.length_cons] at hlen
    omega
  refine ⟨c, ?_, hc⟩
  have : c ∈ (L.drop k).reverse := by rw [hR]; exact List.mem_cons_self c cs
  simpa using this

/-- When `\s*(.+)` is matched against a suffix of a stripped line, the
captured group strips to a nonempty string.  (The degenerate branch of
`capAfterWs`, which captures a lone whitespace character, needs the suffix
to be nonempty and all-whitespace, which a stripped line never offers.) -/
theorem capAfterWs_strip_ne (s : Str) (k : Nat) (g : Str)
    (h : capAfterWs ((strip s).drop k) = some g) : strip g ≠ [] := by
  set rest := (strip s).drop k with hrest
  by_cases hre : rest.isEmpty
  · rw [capAfterWs, if_pos hre] at h
    exact absurd h (by simp)
  · have hne : rest ≠ [] := by simpa using hre
    rw [capAfterWs, if_neg hre] at h
    by_cases ht : (rest.dropWhile pyIsSpace).isEmpty
    · -- all-whitespace suffix: impossible after a strip
      have hall : ∀ c ∈ rest, pyIsSpace c = true := by
        have := List.isEmpty_eq_true.mp ht
        intro c hc
        exact List.dropWhile_eq_nil_iff.mp this c hc
      obtain ⟨c, hc, hcf⟩ := strip_drop_has_nonspace s k (hrest ▸ hne)
      rw [← hrest] at hc
      rw [hall c hc] at hcf
      cases hcf
    · rw [if_neg ht] at h
      obtain ⟨c, cs, hcons⟩ : ∃ c cs, rest.dropWhile pyIsSpace = c :: cs := by
        cases hcase : rest.dropWhile pyIsSpace with
        | nil =>
          exact absurd (show (rest.dropWhile pyIsSpace).isEmpty = true by rw [hcase]; rfl) ht
        | cons c cs => exact ⟨c, cs, rfl⟩
      have hcsp : pyIsSpace c = false := dropWhile_head_false hcons
      have hcnl : (fun x : Char => !(x == '\n')) c = true := by
        rcases hbe : c == '\n' with _ | _
        · simp [hbe]
        · rw [show c = '\n' from by simpa using hbe] at hcsp
          simp [pyIsSpace] at hcsp
      rw [hcons, @List.takeWhile_cons_of_pos Char (fun x : Char => !(x == '\n')) c cs hcnl] at h
      have hg : g = c :: cs.takeWhile (fun x => !(x == '\n')) := by
        simpa using h.symm
      -- g starts with a non-whitespace character, so stripping keeps it
      intro hxnil
      have hdrop : g.dropWhile pyIsSpace = g := by
        rw [hg]; exact List.dropWhile_cons_of_neg (by simp [hcsp])
      have hrevnil : (g.dropWhile pyIsSpace).reverse.dropWhile pyIsSpace = [] := by
        simpa [strip, dropTrail, hdrop] using hxnil
      rw [hdrop] at hrevnil
      have hcmem : c ∈ g.reverse := by rw [hg]; simp
      have hsp := List.dropWhile_eq_nil_iff.mp hrevnil c hcmem
      rw [hcsp] at hsp
      cases hsp

/-- Case-insensitive prefix match fails when the first letters differ. -/
theorem startsWithCI_eq_false {q : Char} {qs : Str} {c : Char} {cs : Str}
    (hne : lowerCh q ≠ lowerCh c) : startsWithCI (q :: qs) (c :: cs) = false := by
  simp [startsWithCI, hne]

/-- A successful case-insensitive prefix match pins down the first letter of
the line up to case. -/
theorem startsWithCI_some_head {q : Char} {qs s : Str}
    (h : startsWithCI (q :: qs) s = true) :
    ∃ c cs, s = c :: cs ∧ lowerCh q = lowerCh c := by
  cases s with
  | nil => simp [startsWithCI] at h
  | cons c cs =>
    simp only [startsWithCI, Bool.and_eq_true, beq_iff_eq] at h
    exact ⟨c, cs, rfl, h.1⟩

/-- A date-line match implies the label prefix matched. -/
theorem dateGroup_starts {line g : Str} (h : dateGroup line = some g) :
    startsWithCI "Date:".data line = true := by
  cases hsw : startsWithCI "Date:".data line
  · simp [dateGroup, hsw] at h
  · rfl

/-- A time-line match implies the label prefix matched. -/
theorem timeGroups_starts {line : Str} {gs : Str × Str × Str × Str}
    (h : timeGroups line = some gs) :
    startsWithCI "Time:".data line = true := by
  cases hsw : startsWithCI "Time:".data line
  · simp [timeGroups, hsw] at h
  · rfl

/-- A label capture implies the label prefix matched. -/
theorem labelCapture_starts {label line g : Str}
    (h : labelCapture label line = some g) :
    startsWithCI label line = true := by
  cases hsw : startsWithCI label line
  · simp [labelCapture, hsw] at h
  · rfl

/-- A line whose first letter is not case-insensitively `D` is no date line. -/
theorem dateGroup_none_head {line : Str} {c : Char} {cs : Str}
    (hline : line = c :: cs) (hne : lowerCh c ≠ 'd') : dateGroup line = none := by
  have hf : startsWithCI "Date:".data line = false := by
    rw [hline, show "Date:".data = 'D' :: "ate:".data from rfl]
    exact startsWithCI_eq_false (by intro hx; exact hne (by rw [← hx]; rfl))
  simp [dateGroup, hf]

/-- A line whose first letter is not case-insensitively `W` is no site line. -/
theorem workSite_none_head {line : Str} {c : Char} {cs : Str}
    (hline : line = c :: cs) (hne : lowerCh c ≠ 'w') :
    labelCapture workSiteLabel line = none := by
  have hf : startsWithCI workSiteLabel line = false := by
    rw [hline, show workSiteLabel = 'W' :: "ork Site:".data from rfl]
    exact startsWithCI_eq_false (by intro hx; exact hne (by rw [← hx]; rfl))
  simp [labelCapture, hf]

/-- A line whose first letter is not case-insensitively `P` is no position line. -/
theorem position_none_head {line : Str} {c : Char} {cs : Str}
    (hline : line = c :: cs) (hne : lowerCh c ≠ 'p') :
    labelCapture positionLabel line = none := by
  have hf : startsWithCI positionLabel line = false := by
    rw [hline, show positionLabel = 'P' :: "osition:".data from rfl]
    exact startsWithCI_eq_false (by intro hx; exact hne (by rw [← hx]; rfl))
  simp [labelCapture, hf]

/-- Scanning a date line stores the strict-parse result — even a failed one —
into the date field, overwriting whatever was there. -/
theorem scanLine_date (st : BlockState) (raw : Str) (g : Str)
    (h : dateGroup (strip raw) = some g) :
    (scanLine st raw).date = pyParseDate g := by
  obtain ⟨c, cs, hline, hq⟩ := startsWithCI_some_head (dateGroup_starts h)
  have hlc : lowerCh c = 'd' := by rw [← hq]; rfl
  have hne0 : (strip raw).isEmpty = false := by rw [hline]; rfl
  have hws : labelCapture workSiteLabel (strip raw) = none :=
    workSite_none_head hline (by rw [hlc]; decide)
  have hpos : labelCapture positionLabel (strip raw) = none :=
    position_none_head hline (by rw [hlc]; decide)
  simp [scanLine, hne0, hws, hpos, h]

/-- Scanning a time line stores both strict-parse results — even failed
ones — into the start and end fields, overwriting whatever was there. -/
theorem scanLine_time (st : BlockState) (raw : Str) (g1 g2 g3 g4 : Str)
    (h : timeGroups (strip raw) = some (g1, g2, g3, g4)) :
    (scanLine st raw).start = pyParseTime g1 g2 ∧
    (scanLine st raw).stop = pyParseTime g3 g4 := by
  obtain ⟨c, cs, hline, hq⟩ := startsWithCI_some_head (timeGroups_starts h)
  have hlc : lowerCh c = 't' := by rw [← hq]; rfl
  have hne0 : (strip raw).isEmpty = false := by rw [hline]; rfl
  have hws : labelCapture workSiteLabel (strip raw) = none :=
    workSite_none_head hline (by rw [hlc]; decide)
  have hpos : labelCapture positionLabel (strip raw) = none :=
    position_none_head hline (by rw [hlc]; decide)
  have hdt : dateGroup (strip raw) = none :=
    dateGroup_none_head hline (by rw [hlc]; decide)
  constructor <;> simp [scanLine, hne0, hws, hpos, hdt, h]

/-- Validation gate, failing side: an unresolved date, start or end kills the block. -/
theorem finishState_none {st : BlockState}
    (h : st.date = none ∨ st.start = none ∨ st.stop = none) :
    finishState st = none := by
  rcases st with ⟨d, s, e, p, w⟩
  cases d <;> cases s <;> cases e <;> simp_all [finishState]

/-- Validation gate, succeeding side: an emitted record carries exactly the
resolved field values, and its title is built from position and site. -/
theorem finishState_some {st : BlockState} {r : Shift}
    (h : finishState st = some r) :
    st.date = some r.date ∧ st.start = some r.start ∧ st.stop = some r.stop ∧
    r.title = mkTitle st.position st.work_site := by
  rcases st with ⟨d, s, e, p, w⟩
  cases d <;> cases s <;> cases e <;> simp [finishState] at h
  obtain rfl := h.symm
  simp

/-- Invariant on the scan state: resolved position and site values are
nonempty (each is a stripped `(.+)` capture from a stripped line). -/
def StInv (st : BlockState) : Prop :=
  (∀ v, st.position = some v → v ≠ []) ∧ (∀ v, st.work_site = some v → v ≠ [])

/-- A label capture from a stripped line strips to a nonempty value. -/
theorem labelCapture_strip_ne {label raw g : Str}
    (h : labelCapture label (strip raw) = some g) : strip g ≠ [] := by
  have hsw := labelCapture_starts h
  rw [labelCapture, if_pos hsw] at h
  exact capAfterWs_strip_ne raw label.length g h

/-- One scan step preserves the nonemptiness invariant. -/
theorem scanLine_inv {st : BlockState} (raw : Str) (h : StInv st) :
    StInv (scanLine st raw) := by
  rw [scanLine]
  rcases h with ⟨hp, hw⟩
  by_cases h0 : (strip raw).isEmpty
  · simp only [h0, if_true]; exact ⟨hp, hw⟩
  · simp only [h0, if_false]
    cases hws : labelCapture workSiteLabel (strip raw) with
    | some g =>
      refine ⟨fun v hv => hp v hv, fun v hv => ?_⟩
      simp at hv
      rw [← hv]
      exact labelCapture_strip_ne hws
    | none =>
      cases hpos : labelCapture positionLabel (strip raw) with
      | some g =>
        refine ⟨fun v hv => ?_, fun v hv => hw v hv⟩
        simp at hv
        rw [← hv]
        exact labelCapture_strip_ne hpos
      | none =>
        cases hdt : dateGroup (strip raw) with
        | some g => exact ⟨hp, hw⟩
        | none =>
          cases htm : timeGroups (strip raw) with
          | some gs => obtain ⟨g1, g2, g3, g4⟩ := gs; exact ⟨hp, hw⟩
          | none => exact ⟨hp, hw⟩

/-- The invariant holds for the fully scanned state of any block. -/
theorem scanBlock_inv (block : Str) : StInv (scanBlock block) := by
  rw [scanBlock]
  have h0 : StInv initState := by
    constructor <;> intro v hv <;> simp [initState] at hv
  generalize initState = st at h0 ⊢
  induction splitlines block generalizing st with
  | nil => exact h0
  | cons l ls ih => exact ih _ (scanLine_inv l h0)

/-- Title of a block with neither position nor site: the default constant. -/
theorem mkTitle_none_none : mkTitle none none = "Work Shift".data := rfl

/-- Title of a block with a position only. -/
theorem mkTitle_some_none {p : Str} (h : p ≠ []) : mkTitle (some p) none = p := by
  simp [mkTitle, pyTruthy, h, joinSep]

/-- Title of a block with a site only. -/
theorem mkTitle_none_some {w : Str} (h : w ≠ []) : mkTitle none (some w) = w := by
  simp [mkTitle, pyTruthy, h, joinSep]

/-- Title of a block with both position and site, joined position-first. -/
theorem mkTitle_some_some {p w : Str} (hp : p ≠ []) (hw : w ≠ []) :
    mkTitle (some p) (some w) = p ++ " @ ".data ++ w := by
  simp [mkTitle, pyTruthy, hp, hw, joinSep]

/-- A `filterMap` keeps exactly one output per input when every input maps
to `some`. -/
theorem length_filterMap_all_some {α β : Type} (f : α → Option β) :
    ∀ l : List α, (∀ a ∈ l, (f a).isSome = true) → (l.filterMap f).length = l.length
  | [], _ => rfl
  | a :: l, h => by
    obtain ⟨b, hb⟩ := Option.isSome_iff_exists.mp (h a (List.mem_cons_self a l))
    rw [List.filterMap_cons, hb]
    simp only [List.length_cons]
    rw [length_filterMap_all_some f l (fun x hx => h x (List.mem_cons_of_mem a hx))]

/-- A `filterMap` output, wrapped back in `some`, is a sublist of the map:
outputs appear in input order. -/
theorem filterMap_map_some_sublist {α β : Type} (f : α → Option β) :
    ∀ l : List α, ((l.filterMap f).map some).Sublist (l.map f)
  | [] => List.Sublist.slnil
  | a :: l => by
    cases hf : f a with
    | none =>
      simpa [List.filterMap_cons, hf] using (filterMap_map_some_sublist f l).cons none
    | some b =>
      simpa [List.filterMap_cons, hf] using (filterMap_map_some_sublist f l).cons₂ (some b)

/-- Case-insensitive matching succeeds on any casing of the literal. -/
theorem startsWithCI_of_map_lower :
    ∀ (p l r : Str), p.map lowerCh = l.map lowerCh → startsWithCI p (l ++ r) = true
  | [], _, _, _ => rfl
  | q :: qs, l, r, h => by
    cases l with
    | nil => simp at h
    | cons c cs =>
      simp only [List.map_cons, List.cons.injEq] at h
      simp only [List.cons_append, startsWithCI, h.1, beq_self_eq_true, Bool.true_and]
      exact startsWithCI_of_map_lower qs cs r h.2

/-- Whitespace characters are unchanged by lower-casing. -/
theorem lowerCh_space_fixed {c : Char} (h : pyIsSpace c = true) : lowerCh c = c := by
  simp only [pyIsSpace, Bool.or_eq_true, beq_iff_eq] at h
  rcases h with ((((h | h) | h) | h) | h) | h <;> subst h <;> decide

/-- Whitespace characters are not digits. -/
theorem space_not_digit {c : Char} (h : pyIsSpace c = true) : isDigitCh c = false := by
  simp only [pyIsSpace, Bool.or_eq_true, beq_iff_eq] at h
  rcases h with ((((h | h) | h) | h) | h) | h <;> subst h <;> decide

/-- General form of a recognised boundary: digits at the very start of the
scan position, a period, whitespace, then any casing of the site label.
The text after the match is returned. -/
theorem boundaryMatch_build (ds ws lbl rest : Str)
    (hds : ds ≠ []) (hdig : ∀ c ∈ ds, isDigitCh c = true)
    (hws : ws ≠ []) (hwsp : ∀ c ∈ ws, pyIsSpace c = true)
    (hlbl : lbl.map lowerCh = workSiteLabel.map lowerCh) :
    boundaryMatch (ds ++ '.' :: (ws ++ (lbl ++ rest))) = some rest := by
  obtain ⟨x, xs, hx⟩ : ∃ x xs, lbl = x :: xs := by
    cases lbl with
    | nil => simp [workSiteLabel] at hlbl
    | cons x xs => exact ⟨x, xs, rfl⟩
  have hxw : lowerCh x = 'w' := by
    rw [hx] at hlbl
    have := congrArg (fun l => l.head? ) hlbl
    simpa [workSiteLabel] using this
  have hxsp : pyIsSpace x = false := by
    cases hv : pyIsSpace x
    · rfl
    · rw [lowerCh_space_fixed hv] at hxw
      rw [hxw] at hv
      simp [pyIsSpace] at hv
  have h1 : (ds ++ '.' :: (ws ++ (lbl ++ rest))).takeWhile isDigitCh = ds := by
    rw [List.takeWhile_append_of_pos hdig,
      @List.takeWhile_cons_of_neg Char isDigitCh '.' (ws ++ (lbl ++ rest)) (by decide)]
    simp
  have h2 : (ds ++ '.' :: (ws ++ (lbl ++ rest))).drop ds.length = '.' :: (ws ++ (lbl ++ rest)) :=
    List.drop_left ds _
  have h3 : (ws ++ (lbl ++ rest)).takeWhile pyIsSpace = ws := by
    rw [List.takeWhile_append_of_pos hwsp, hx, List.cons_append,
      @List.takeWhile_cons_of_neg Char pyIsSpace x (xs ++ rest) (by simp [hxsp])]
    simp
  have h4 : (ws ++ (lbl ++ rest)).drop ws.length = lbl ++ rest := List.drop_left ws _
  have h5 : startsWithCI workSiteLabel (lbl ++ rest) = true :=
    startsWithCI_of_map_lower workSiteLabel lbl rest hlbl.symm
  have h6 : (lbl ++ rest).drop workSiteLabel.length = rest :=
    List.drop_left' (by have := congrArg List.length hlbl; simpa using this)
  simp [boundaryMatch, h1, h2, h3, h4, h5, h6, hds, hws]

/-- A scan position that begins with whitespace is never a boundary match:
the pattern requires a digit immediately at the anchor. -/
theorem boundaryMatch_space (c : Char) (s : Str) (h : pyIsSpace c = true) :
    boundaryMatch (c :: s) = none := by
  have hd : isDigitCh c = false := space_not_digit h
  have h1 : List.takeWhile isDigitCh (c :: s) = [] :=
    @List.takeWhile_cons_of_neg Char isDigitCh c s (by simp [hd])
  simp [boundaryMatch, h1]

/-!
Claim theorems.
-/

/-- C1, counterexample.  The claim predicts that the line
`"  2. Work Site: X"` (leading whitespace before the digits) starts a new
shift block.  On the code it does not: `SHIFT_BLOCK_RE` anchors `\d+`
directly at the line start, so the split finds no boundary at all in this
body — the split yields a single segment (the whole text) and the extractor,
which would otherwise produce one full record from this block, returns
nothing. -/
theorem c1_leading_whitespace_cex :
    (reSplitShiftBlock "Your shifts:\n  2. Work Site: X\nDate: 02/03/2026\nTime: 03:00 PM - 11:00 PM".data).length = 1 ∧
    parse_shifts "Your shifts:\n  2. Work Site: X\nDate: 02/03/2026\nTime: 03:00 PM - 11:00 PM".data none = [] ∧
    parse_shifts "Your shifts:\n2. Work Site: X\nDate: 02/03/2026\nTime: 03:00 PM - 11:00 PM".data none =
      [⟨⟨2026, 3, 2⟩, ⟨15, 0⟩, ⟨23, 0⟩, "X".data⟩] := by
  refine ⟨by decide, by decide, by decide⟩

/-- C1, amended.  A boundary line is: one or more digits at the very start
of the line (no leading whitespace permitted), a period, whitespace, then
the site label compared case-insensitively; the matched text is consumed and
what follows it opens the new block.  A position starting with whitespace
never matches, so `"  2. Work Site: X"` does not start a block while
`"2. WORK site: X"` does. -/
theorem c1_boundary_recognition_amended :
    (∀ ds ws lbl rest : Str, ds ≠ [] → (∀ c ∈ ds, isDigitCh c = true) →
      ws ≠ [] → (∀ c ∈ ws, pyIsSpace c = true) →
      lbl.map lowerCh = workSiteLabel.map lowerCh →
      boundaryMatch (ds ++ '.' :: (ws ++ (lbl ++ rest))) = some rest) ∧
    (∀ (c : Char) (s : Str), pyIsSpace c = true → boundaryMatch (c :: s) = none) ∧
    (reSplitShiftBlock "Hi\n2. WORK site: X\nbye".data).length = 2 ∧
    (reSplitShiftBlock "Hi\n  2. Work Site: X\nbye".data).length = 1 := by
  exact ⟨boundaryMatch_build, boundaryMatch_space, by decide, by decide⟩

/-- Witness for the amended C1 theorem at concrete inputs: a mixed-case
label after `"12."` and spaces is recognised, a leading space is not. -/
theorem c1_boundary_recognition_amended_witness :
    boundaryMatch ("12".data ++ '.' :: ("  ".data ++ ("wOrK SiTe:".data ++ " A\nrest".data))) =
      some " A\nrest".data ∧
    boundaryMatch (' ' :: "2. Work Site: A".data) = none := by
  constructor
  · exact c1_boundary_recognition_amended.1 "12".data "  ".data "wOrK SiTe:".data " A\nrest".data
      (by decide) (by decide) (by decide) (by decide) (by decide)
  · exact c1_boundary_recognition_amended.2.1 ' ' "2. Work Site: A".data (by decide)

/-- C9.  The reference-date parameter of `parse_shifts` is dead: the result
depends only on the body, so any two reference dates (or none) give
identical outputs. -/
theorem c9_reference_date_noninterference :
    ∀ (body : Str) (r1 r2 : Option PyDate), parse_shifts body r1 = parse_shifts body r2 := by
  intro body r1 r2
  rfl

/-- C7, counterexample.  The claim says the sink adds exactly one day to the
end instant whenever end ≤ start and always builds the event with the start
instant unchanged.  At the record date `9999-12-31` (reachable from the
parser: `"31/12/9999"` is a valid date line) with end ≤ start, Python's
`datetime` range overflows: `dt_end + timedelta(days=1)` raises
`OverflowError` and no event is built at all, modelled here as `none`. -/
theorem c7_rollover_overflow_cex :
    timeLe (PyTime.mk 7 0) (PyTime.mk 23 0) = true ∧
    make_event_times ⟨⟨9999, 12, 31⟩, ⟨23, 0⟩, ⟨7, 0⟩, "X".data⟩ = none ∧
    pyParseDate "31/12/9999".data = some ⟨9999, 12, 31⟩ := by
  refine ⟨by decide, by decide, by decide⟩

/-- C7, amended.  When end > start the event spans the record's date with
both instants unchanged; when end ≤ start the end instant is moved to the
next calendar day — except on `9999-12-31`, where the day increment
overflows Python's date range and the sink raises instead of building an
event.  Whenever an event is built, its start instant is the record's date
with the record's start time. -/
theorem c7_rollover_amended (s : Shift) :
    (timeLe s.stop s.start = false →
      make_event_times s = some ((s.date, s.start), (s.date, s.stop))) ∧
    (timeLe s.stop s.start = true → s.date ≠ ⟨9999, 12, 31⟩ →
      make_event_times s = some ((s.date, s.start), (nextDay s.date, s.stop))) ∧
    (timeLe s.stop s.start = true → s.date = ⟨9999, 12, 31⟩ →
      make_event_times s = none) ∧
    (∀ ev, make_event_times s = some ev → ev.1 = (s.date, s.start)) := by
  have hdt : dtLe (s.date, s.stop) (s.date, s.start) = timeLe s.stop s.start := by
    have hirr : dateLtB s.date s.date = false := by
      simp [dateLtB]
    simp [dtLe, hirr]
  refine ⟨?_, ?_, ?_, ?_⟩
  · intro h
    rw [make_event_times]
    rw [hdt, h]
    rfl
  · intro h hne
    rw [make_event_times]
    rw [hdt, h, if_pos rfl, addOneDay, if_neg hne]
    rfl
  · intro h heq
    rw [make_event_times]
    rw [hdt, h, if_pos rfl, addOneDay, if_pos heq]
    rfl
  · intro ev hev
    rw [make_event_times, hdt] at hev
    cases hv : timeLe s.stop s.start with
    | false => rw [hv, if_neg (by simp)] at hev; cases hev; rfl
    | true =>
      rw [hv, if_pos rfl] at hev
      cases haddv : addOneDay s.date with
      | none => rw [haddv] at hev; cases hev
      | some d2 => rw [haddv] at hev; cases hev; rfl

/-- Witness for the amended C7 theorem: a day shift stays on its date, an
overnight shift ends on the calendar successor, and the overflow date yields
no event. -/
theorem c7_rollover_amended_witness :
    make_event_times ⟨⟨2026, 3, 2⟩, ⟨15, 0⟩, ⟨23, 0⟩, "X".data⟩ =
      some ((⟨2026, 3, 2⟩, ⟨15, 0⟩), (⟨2026, 3, 2⟩, ⟨23, 0⟩)) ∧
    make_event_times ⟨⟨2026, 3, 2⟩, ⟨23, 0⟩, ⟨7, 0⟩, "X".data⟩ =
      some ((⟨2026, 3, 2⟩, ⟨23, 0⟩), (nextDay ⟨2026, 3, 2⟩, ⟨7, 0⟩)) ∧
    make_event_times ⟨⟨9999, 12, 31⟩, ⟨22, 0⟩, ⟨22, 0⟩, "X".data⟩ = none := by
  refine ⟨?_, ?_, ?_⟩
  · exact (c7_rollover_amended ⟨⟨2026, 3, 2⟩, ⟨15, 0⟩, ⟨23, 0⟩, "X".data⟩).1 (by decide)
  · exact (c7_rollover_amended ⟨⟨2026, 3, 2⟩, ⟨23, 0⟩, ⟨7, 0⟩, "X".data⟩).2.1 (by decide) (by decide)
  · exact (c7_rollover_amended ⟨⟨9999, 12, 31⟩, ⟨22, 0⟩, ⟨22, 0⟩, "X".data⟩).2.2.1 (by decide) (by decide)

/-- C2.  No partial records: a block whose date, start or end stayed
unresolved after scanning all its lines yields nothing; an emitted record
carries exactly the resolved values of all three fields; and every record
of the extractor's output comes from some block that parsed successfully. -/
theorem c2_records_never_partial :
    (∀ block : Str, ((scanBlock block).date = none ∨ (scanBlock block).start = none ∨
        (scanBlock block).stop = none) → parse_block block = none) ∧
    (∀ (block : Str) (r : Shift), parse_block block = some r →
      (scanBlock block).date = some r.date ∧ (scanBlock block).start = some r.start ∧
      (scanBlock block).stop = some r.stop) ∧
    (∀ (body : Str) (ref : Option PyDate) (r : Shift), r ∈ parse_shifts body ref →
      ∃ b ∈ (reSplitShiftBlock body).drop 1, parse_block (workSiteLabel ++ b) = some r) := by
  refine ⟨?_, ?_, ?_⟩
  · intro block h
    exact finishState_none h
  · intro block r h
    have hs := finishState_some h
    exact ⟨hs.1, hs.2.1, hs.2.2.1⟩
  · intro body ref r h
    rw [parse_shifts] at h
    obtain ⟨b, hb, hf⟩ := List.mem_filterMap.mp h
    exact ⟨b, hb, hf⟩

/-- Witness for C2: a block with only a site line yields nothing; a full
block's emitted record fields are its resolved date, start and end; a
record in the output of a two-block body traces back to a block. -/
theorem c2_records_never_partial_witness :
    parse_block "Work Site: X".data = none ∧
    ((scanBlock "Work Site: X\nDate: 02/03/2026\nTime: 03:00 PM - 11:00 PM".data).date = some ⟨2026, 3, 2⟩ ∧
     (scanBlock "Work Site: X\nDate: 02/03/2026\nTime: 03:00 PM - 11:00 PM".data).start = some ⟨15, 0⟩ ∧
     (scanBlock "Work Site: X\nDate: 02/03/2026\nTime: 03:00 PM - 11:00 PM".data).stop = some ⟨23, 0⟩) ∧
    (∃ b ∈ (reSplitShiftBlock "1. Work Site: X\nDate: 02/03/2026\nTime: 03:00 PM - 11:00 PM".data).drop 1,
      parse_block (workSiteLabel ++ b) = some ⟨⟨2026, 3, 2⟩, ⟨15, 0⟩, ⟨23, 0⟩, "X".data⟩) := by
  refine ⟨?_, ?_, ?_⟩
  · exact c2_records_never_partial.1 "Work Site: X".data (Or.inl (by decide))
  · exact c2_records_never_partial.2.1
      "Work Site: X\nDate: 02/03/2026\nTime: 03:00 PM - 11:00 PM".data
      ⟨⟨2026, 3, 2⟩, ⟨15, 0⟩, ⟨23, 0⟩, "X".data⟩ (by decide)
  · exact c2_records_never_partial.2.2
      "1. Work Site: X\nDate: 02/03/2026\nTime: 03:00 PM - 11:00 PM".data none
      ⟨⟨2026, 3, 2⟩, ⟨15, 0⟩, ⟨23, 0⟩, "X".data⟩ (by decide)

/-- C3.  Dates are parsed day/month/4-digit-year: `"02/03/2026"` is
2 March 2026; a string in that shape that is no valid calendar date parses
to nothing (`"31/02/2026"`); a date line whose value fails the strict parse
leaves the date field unresolved (overwriting it with `None`); and a block
whose date is unresolved is discarded. -/
theorem c3_date_parsing :
    pyParseDate "02/03/2026".data = some ⟨2026, 3, 2⟩ ∧
    pyParseDate "31/02/2026".data = none ∧
    (∀ (st : BlockState) (raw g : Str), dateGroup (strip raw) = some g →
      pyParseDate g = none → (scanLine st raw).date = none) ∧
    (∀ st : BlockState, st.date = none → finishState st = none) := by
  refine ⟨by decide, by decide, ?_, ?_⟩
  · intro st raw g hg hp
    rw [scanLine_date st raw g hg, hp]
  · intro st h
    exact finishState_none (Or.inl h)

/-- Witness for C3: the nonexistent date 31 February leaves the field
unresolved, and an unresolved date discards the block. -/
theorem c3_date_parsing_witness :
    (scanLine initState "Date: 31/02/2026".data).date = none ∧
    finishState initState = none := by
  constructor
  · exact c3_date_parsing.2.2.1 initState "Date: 31/02/2026".data "31/02/2026".data
      (by decide) (by decide)
  · exact c3_date_parsing.2.2.2 initState rfl

/-- C4.  Strict 12-hour time parsing: `"03:00 PM"` is 15:00, `"12:00 AM"` is
midnight, `"12:00 PM"` is noon, `"11:00 PM"` is 23:00, and an out-of-range
hour such as `"13:00 PM"` parses to nothing.  A matched time line stores the
two independently parsed results into start and end, and a block with an
unresolved start or end is discarded. -/
theorem c4_time_parsing :
    pyParseTime "03:00".data "PM".data = some ⟨15, 0⟩ ∧
    pyParseTime "12:00".data "AM".data = some ⟨0, 0⟩ ∧
    pyParseTime "12:00".data "PM".data = some ⟨12, 0⟩ ∧
    pyParseTime "11:00".data "PM".data = some ⟨23, 0⟩ ∧
    pyParseTime "13:00".data "PM".data = none ∧
    (∀ (st : BlockState) (raw g1 g2 g3 g4 : Str),
      timeGroups (strip raw) = some (g1, g2, g3, g4) →
      (scanLine st raw).start = pyParseTime g1 g2 ∧
      (scanLine st raw).stop = pyParseTime g3 g4) ∧
    (∀ st : BlockState, st.start = none ∨ st.stop = none → finishState st = none) := by
  refine ⟨by decide, by decide, by decide, by decide, by decide, ?_, ?_⟩
  · intro st raw g1 g2 g3 g4 h
    exact scanLine_time st raw g1 g2 g3 g4 h
  · intro st h
    exact finishState_none (Or.inr h)

/-- Witness for C4: a time line with an invalid first time and a valid
second one resolves start to nothing and end to 23:00, and an unresolved
start discards the block. -/
theorem c4_time_parsing_witness :
    ((scanLine initState "Time: 13:00 PM - 11:00 PM".data).start =
        pyParseTime "13:00".data "PM".data ∧
     (scanLine initState "Time: 13:00 PM - 11:00 PM".data).stop =
        pyParseTime "11:00".data "PM".data) ∧
    finishState initState = none := by
  constructor
  · exact c4_time_parsing.2.2.2.2.2.1 initState "Time: 13:00 PM - 11:00 PM".data
      "13:00".data "PM".data "11:00".data "PM".data (by decide)
  · exact c4_time_parsing.2.2.2.2.2.2 initState (Or.inl rfl)

/-- C5.  Title composition of an emitted record, by which optional fields
resolved: neither gives the default constant, one gives that value alone,
both give position then site joined with the fixed separator.  The resolved
values are nonempty by construction, so the title is never empty. -/
theorem c5_title_composition (block : Str) (r : Shift) (h : parse_block block = some r) :
    ((scanBlock block).position = none → (scanBlock block).work_site = none →
      r.title = "Work Shift".data) ∧
    (∀ p, (scanBlock block).position = some p → (scanBlock block).work_site = none →
      r.title = p) ∧
    (∀ w, (scanBlock block).position = none → (scanBlock block).work_site = some w →
      r.title = w) ∧
    (∀ p w, (scanBlock block).position = some p → (scanBlock block).work_site = some w →
      r.title = p ++ " @ ".data ++ w) := by
  have htitle : r.title = mkTitle (scanBlock block).position (scanBlock block).work_site :=
    (finishState_some h).2.2.2
  have hinv := scanBlock_inv block
  refine ⟨?_, ?_, ?_, ?_⟩
  · intro hp hw
    rw [htitle, hp, hw]
    exact mkTitle_none_none
  · intro p hp hw
    rw [htitle, hp, hw]
    exact mkTitle_some_none (hinv.1 p hp)
  · intro w hp hw
    rw [htitle, hp, hw]
    exact mkTitle_none_some (hinv.2 w hw)
  · intro p w hp hw
    rw [htitle, hp, hw]
    exact mkTitle_some_some (hinv.1 p hp) (hinv.2 w hw)

/-- Witness for C5: the four title cases on four concrete blocks. -/
theorem c5_title_composition_witness :
    (Shift.title ⟨⟨2026, 3, 2⟩, ⟨15, 0⟩, ⟨23, 0⟩, "Work Shift".data⟩ = "Work Shift".data) ∧
    (Shift.title ⟨⟨2026, 3, 2⟩, ⟨15, 0⟩, ⟨23, 0⟩, "Bartender".data⟩ = "Bartender".data) ∧
    (Shift.title ⟨⟨2026, 3, 2⟩, ⟨15, 0⟩, ⟨23, 0⟩, "Carrington".data⟩ = "Carrington".data) ∧
    (Shift.title ⟨⟨2026, 3, 2⟩, ⟨15, 0⟩, ⟨23, 0⟩, "Bartender @ Carrington".data⟩ =
      "Bartender".data ++ " @ ".data ++ "Carrington".data) := by
  refine ⟨?_, ?_, ?_, ?_⟩
  · exact (c5_title_composition "Date: 02/03/2026\nTime: 03:00 PM - 11:00 PM".data
      ⟨⟨2026, 3, 2⟩, ⟨15, 0⟩, ⟨23, 0⟩, "Work Shift".data⟩ (by decide)).1 (by decide) (by decide)
  · exact (c5_title_composition "Position: Bartender\nDate: 02/03/2026\nTime: 03:00 PM - 11:00 PM".data
      ⟨⟨2026, 3, 2⟩, ⟨15, 0⟩, ⟨23, 0⟩, "Bartender".data⟩ (by decide)).2.1
      "Bartender".data (by decide) (by decide)
  · exact (c5_title_composition "Work Site: Carrington\nDate: 02/03/2026\nTime: 03:00 PM - 11:00 PM".data
      ⟨⟨2026, 3, 2⟩, ⟨15, 0⟩, ⟨23, 0⟩, "Carrington".data⟩ (by decide)).2.2.1
      "Carrington".data (by decide) (by decide)
  · exact (c5_title_composition
      "Work Site: Carrington\nPosition: Bartender\nDate: 02/03/2026\nTime: 03:00 PM - 11:00 PM".data
      ⟨⟨2026, 3, 2⟩, ⟨15, 0⟩, ⟨23, 0⟩, "Bartender @ Carrington".data⟩ (by decide)).2.2.2
      "Bartender".data "Carrington".data (by decide) (by decide)

/-- C6.  When every block of the body parses, the extractor emits exactly
one record per block; and for every input — malformed blocks included — the
emitted records appear in source-block order (their sequence, wrapped in
`some`, is a sublist of the per-block parse results in block order — no
sorting). -/
theorem c6_one_record_per_block_in_order (body : Str) (ref : Option PyDate) :
    ((∀ b ∈ (reSplitShiftBlock body).drop 1,
        (parse_block (workSiteLabel ++ b)).isSome = true) →
      (parse_shifts body ref).length = ((reSplitShiftBlock body).drop 1).length) ∧
    ((parse_shifts body ref).map some).Sublist
      (((reSplitShiftBlock body).drop 1).map (fun b => parse_block (workSiteLabel ++ b))) := by
  constructor
  · intro h
    rw [parse_shifts]
    exact length_filterMap_all_some _ _ h
  · rw [parse_shifts]
    exact filterMap_map_some_sublist _ _

/-- Witness for C6: the count conclusion on a two-block body in which both
blocks are well-formed, and the order conclusion on a body whose first
block is malformed (missing its date line). -/
theorem c6_one_record_per_block_in_order_witness :
    (parse_shifts "hello\n1. Work Site: A\nDate: 02/03/2026\nTime: 03:00 PM - 11:00 PM\n2. Work Site: B\nDate: 03/03/2026\nTime: 09:00 AM - 05:00 PM".data none).length =
      ((reSplitShiftBlock "hello\n1. Work Site: A\nDate: 02/03/2026\nTime: 03:00 PM - 11:00 PM\n2. Work Site: B\nDate: 03/03/2026\nTime: 09:00 AM - 05:00 PM".data).drop 1).length ∧
    ((parse_shifts "hello\n1. Work Site: A\nTime: 03:00 PM - 11:00 PM\n2. Work Site: B\nDate: 03/03/2026\nTime: 09:00 AM - 05:00 PM".data none).map some).Sublist
      (((reSplitShiftBlock "hello\n1. Work Site: A\nTime: 03:00 PM - 11:00 PM\n2. Work Site: B\nDate: 03/03/2026\nTime: 09:00 AM - 05:00 PM".data).drop 1).map
        (fun b => parse_block (workSiteLabel ++ b))) :=
  ⟨(c6_one_record_per_block_in_order
      "hello\n1. Work Site: A\nDate: 02/03/2026\nTime: 03:00 PM - 11:00 PM\n2. Work Site: B\nDate: 03/03/2026\nTime: 09:00 AM - 05:00 PM".data
      none).1 (by decide),
   (c6_one_record_per_block_in_order
      "hello\n1. Work Site: A\nTime: 03:00 PM - 11:00 PM\n2. Work Site: B\nDate: 03/03/2026\nTime: 09:00 AM - 05:00 PM".data
      none).2⟩

/-- C8.  The extractor is total and degrades by omission: its output never
has more records than there are blocks; a split that found no boundary
(one single segment) yields the empty sequence; and a concrete boundary-free
body yields the empty sequence, not an error. -/
theorem c8_extractor_never_fails :
    (∀ (body : Str) (ref : Option PyDate),
      (parse_shifts body ref).length ≤ ((reSplitShiftBlock body).drop 1).length) ∧
    (∀ (body : Str) (ref : Option PyDate),
      (reSplitShiftBlock body).length = 1 → parse_shifts body ref = []) ∧
    parse_shifts "Hello there,\nnothing shift-like in this message.".data none = [] := by
  refine ⟨?_, ?_, by decide⟩
  · intro body ref
    rw [parse_shifts]
    exact List.length_filterMap_le _ _
  · intro body ref h
    rw [parse_shifts]
    have hnil : (reSplitShiftBlock body).drop 1 = [] := List.drop_eq_nil_iff.mpr (by omega)
    rw [hnil]
    rfl

/-- Witness for C8: a body in which the splitter finds no boundary. -/
theorem c8_extractor_never_fails_witness :
    parse_shifts "Hi team, the rota is attached.".data none = [] :=
  c8_extractor_never_fails.2.1 "Hi team, the rota is attached.".data none (by decide)

/-- C10.  Last write wins even when the later value is unparsable: a date
line whose shaped value fails the strict calendar parse overwrites the date
field with `None`, a time line with an unparsable first time overwrites the
start field with `None`, and a block with any of the three fields
unresolved is discarded — concretely, a block that would parse loses its
record when a malformed duplicate date (or time) line follows. -/
theorem c10_last_write_wins_unresolved :
    (∀ (st : BlockState) (raw g : Str), dateGroup (strip raw) = some g →
      pyParseDate g = none → (scanLine st raw).date = none) ∧
    (∀ (st : BlockState) (raw g1 g2 g3 g4 : Str),
      timeGroups (strip raw) = some (g1, g2, g3, g4) → pyParseTime g1 g2 = none →
      (scanLine st raw).start = none) ∧
    (∀ st : BlockState, st.date = none ∨ st.start = none ∨ st.stop = none →
      finishState st = none) ∧
    parse_block "Work Site: X\nDate: 02/03/2026\nTime: 03:00 PM - 11:00 PM".data =
      some ⟨⟨2026, 3, 2⟩, ⟨15, 0⟩, ⟨23, 0⟩, "X".data⟩ ∧
    parse_block "Work Site: X\nDate: 02/03/2026\nTime: 03:00 PM - 11:00 PM\nDate: 31/02/2026".data = none ∧
    parse_block "Work Site: X\nDate: 02/03/2026\nTime: 03:00 PM - 11:00 PM\nTime: 13:00 PM - 11:00 PM".data = none := by
  refine ⟨?_, ?_, ?_, by decide, by decide, by decide⟩
  · intro st raw g hg hp
    rw [scanLine_date st raw g hg, hp]
  · intro st raw g1 g2 g3 g4 h hp
    rw [(scanLine_time st raw g1 g2 g3 g4 h).1, hp]
  · exact fun st h => finishState_none h

/-- Witness for C10: a state with all three fields already resolved loses
its date (resp. start) to a later malformed line, and the resulting state is
discarded. -/
theorem c10_last_write_wins_unresolved_witness :
    (scanLine ⟨some ⟨2026, 3, 2⟩, some ⟨15, 0⟩, some ⟨23, 0⟩, none, none⟩
      "Date: 31/02/2026".data).date = none ∧
    (scanLine ⟨some ⟨2026, 3, 2⟩, some ⟨15, 0⟩, some ⟨23, 0⟩, none, none⟩
      "Time: 13:00 PM - 11:00 PM".data).start = none ∧
    finishState ⟨none, some ⟨15, 0⟩, some ⟨23, 0⟩, none, none⟩ = none := by
  refine ⟨?_, ?_, ?_⟩
  · exact c10_last_write_wins_unresolved.1
      ⟨some ⟨2026, 3, 2⟩, some ⟨15, 0⟩, some ⟨23, 0⟩, none, none⟩
      "Date: 31/02/2026".data "31/02/2026".data (by decide) (by decide)
  · exact c10_last_write_wins_unresolved.2.1
      ⟨some ⟨2026, 3, 2⟩, some ⟨15, 0⟩, some ⟨23, 0⟩, none, none⟩
      "Time: 13:00 PM - 11:00 PM".data
      "13:00".data "PM".data "11:00".data "PM".data (by decide) (by decide)
  · exact c10_last_write_wins_unresolved.2.2.1
      ⟨none, some ⟨15, 0⟩, some ⟨23, 0⟩, none, none⟩ (Or.inl rfl)
